import Mathlib

/-!
Verification of the resilient caching layer of a Go Fiber web backend:
cache-key generation (`src/middleware/cache/keygen.go`), the session cache
(`src/service/user_service.go`), the circuit breaker configuration
(`src/redis/client.go` with the sony/gobreaker v2 state machine),
pattern-based invalidation (`src/cache`), and the rate limiter's key
derivation (`src/middleware/limiter.go`).

Strings are modelled as Lean `String`s; Go operates on bytes, Lean on
characters, which coincide on the ASCII inputs these functions receive
(each `Char` stands for one byte).
-/

/-! ## Key generator (src/middleware/cache/keygen.go) -/

/-- Left-to-right, non-overlapping replacement of `"//"` by `"/"` on the
character list, embedding `strings.ReplaceAll(path, "//", "/")`: after a
match the scan resumes after the written replacement, so the emitted `'/'`
is never re-examined. -/
def replaceDoubleSlash : List Char → List Char
  | [] => []
  | [c] => [c]
  | a :: b :: r =>
    if a = '/' ∧ b = '/' then '/' :: replaceDoubleSlash r
    else a :: replaceDoubleSlash (b :: r)

/-- Embeds `strings.TrimSuffix(path, "/")`: drops one trailing `'/'` if
present. -/
def trimSuffixSlash (l : List Char) : List Char :=
  if l.getLast? = some '/' then l.dropLast else l

/-- Embeds `normalizePath` from keygen.go: `ReplaceAll(path, "//", "/")`
followed by `TrimSuffix(path, "/")`. -/
def normalizePath (path : String) : String :=
  ⟨trimSuffixSlash (replaceDoubleSlash path.data)⟩

/-- Hex digit test on a character-as-byte, embedding Go's `ishex`. -/
def isHexChar (c : Char) : Bool :=
  ('0' ≤ c && c ≤ '9') || ('a' ≤ c && c ≤ 'f') || ('A' ≤ c && c ≤ 'F')

/-- Hex digit value, embedding Go's `unhex`. -/
def unhexChar (c : Char) : Nat :=
  if '0' ≤ c && c ≤ '9' then c.toNat - '0'.toNat
  else if 'a' ≤ c && c ≤ 'f' then c.toNat - 'a'.toNat + 10
  else if 'A' ≤ c && c ≤ 'F' then c.toNat - 'A'.toNat + 10
  else 0

/-- Embeds `url.QueryUnescape`: percent-decodes `%XX`, maps `'+'` to a
space, and fails (`none`) on a malformed or truncated escape, exactly the
cases where Go reports an `EscapeError`. -/
def queryUnescape : List Char → Option (List Char)
  | [] => some []
  | '%' :: a :: b :: rest =>
    if isHexChar a && isHexChar b then
      (queryUnescape rest).map (fun t => Char.ofNat (16 * unhexChar a + unhexChar b) :: t)
    else none
  | '%' :: _ => none
  | '+' :: rest => (queryUnescape rest).map (fun t => ' ' :: t)
  | c :: rest => (queryUnescape rest).map (fun t => c :: t)

/-- Characters Go's `url.QueryEscape` leaves unescaped
(`shouldEscape(c, encodeQueryComponent) = false`): ASCII alphanumerics and
`-`, `_`, `.`, `~`. -/
def isUnreservedQueryChar (c : Char) : Bool :=
  ('a' ≤ c && c ≤ 'z') || ('A' ≤ c && c ≤ 'Z') || ('0' ≤ c && c ≤ '9') ||
    c = '-' || c = '_' || c = '.' || c = '~'

/-- Upper-case hex digit, embedding Go's `upperhex` table lookup. -/
def hexUpperDigit (n : Nat) : Char :=
  if n < 10 then Char.ofNat ('0'.toNat + n) else Char.ofNat ('A'.toNat + n - 10)

/-- Per-character action of `url.QueryEscape`: a space becomes `'+'`, an
unreserved character stays, anything else becomes `%XX` with upper-case
hex. -/
def queryEscapeChar (c : Char) : List Char :=
  if isUnreservedQueryChar c then [c]
  else if c = ' ' then ['+']
  else ['%', hexUpperDigit (c.toNat / 16), hexUpperDigit (c.toNat % 16)]

/-- Embeds `url.QueryEscape` on a whole string. -/
def queryEscape (s : String) : String :=
  ⟨(s.data.map queryEscapeChar).flatten⟩

/-- Embeds `strings.Cut(seg, "=")` as used by `url.ParseQuery`: the part
before the first `'='` and the part after it (empty when absent). -/
def cutEq : List Char → List Char × List Char
  | [] => ([], [])
  | c :: rest =>
    if c = '=' then ([], rest)
    else
      let p := cutEq rest
      (c :: p.1, p.2)

/-- Embeds Go's map insertion `m[key] = append(m[key], value)` on an
association list: the value is appended to the existing group for `key`,
or a new group is added at the end. -/
def addPair : List (String × List String) → String → String → List (String × List String)
  | [], k, v => [(k, [v])]
  | (k0, vs) :: rest, k, v =>
    if k0 = k then (k0, vs ++ [v]) :: rest
    else (k0, vs) :: addPair rest k v

/-- One iteration of `url.ParseQuery`'s loop body for a single `&`-separated
segment: a segment containing `';'` is an error, an empty segment is
skipped, otherwise key and value are cut at `'='` and unescaped (an
unescape failure is an error). `none` models Go's non-nil `err`, the only
fact `sortQueryParams` consumes. -/
def parseSegment (m : List (String × List String)) (seg : List Char) :
    Option (List (String × List String)) :=
  if seg.contains ';' then none
  else if seg = [] then some m
  else
    match queryUnescape (cutEq seg).1, queryUnescape (cutEq seg).2 with
    | some k, some v => some (addPair m ⟨k⟩ ⟨v⟩)
    | _, _ => none

/-- Embeds `url.ParseQuery`: split on `'&'`, fold the per-segment step.
The result groups values by unescaped key in first-occurrence order. -/
def parseQuery (q : List Char) : Option (List (String × List String)) :=
  (q.splitOn '&').foldlM parseSegment []

/-- First-match association lookup; with distinct keys this is exactly the
Go map read `params[name]`. -/
def lookupValues : List (String × List String) → String → List String
  | [], _ => []
  | (k, vs) :: rest, n => if k = n then vs else lookupValues rest n

/-- Embeds `sortQueryParams` from keygen.go: empty input stays empty; a
parse error returns the input unchanged; otherwise parameter names are
sorted (`sort.Strings` — Go's map iteration order is irrelevant because the
collected names are sorted, so sorting the first-occurrence enumeration is
observationally identical), values keep their per-name order, each emitted
as `name=QueryEscape(value)`, joined with `&`. -/
def sortQueryParams (queryString : String) : String :=
  if queryString = "" then ""
  else
    match parseQuery queryString.data with
    | none => queryString
    | some params =>
      let names := (params.map Prod.fst).insertionSort (· ≤ ·)
      let parts := (names.map (fun n =>
        (lookupValues params n).map (fun v => n ++ "=" ++ queryEscape v))).flatten
      String.intercalate "&" parts

/-- Embeds the constant `CacheKeyPrefix`. -/
def CacheKeyPrefix : String := "api:response:"

/-- Embeds `GenerateCacheKey` from keygen.go:
`fmt.Sprintf("%s%s:%s?%s", CacheKeyPrefix, method, normalizedPath, sortedQuery)`. -/
def GenerateCacheKey (method path queryString : String) : String :=
  CacheKeyPrefix ++ method ++ ":" ++ normalizePath path ++ "?" ++ sortQueryParams queryString

/-- Embeds the `skipPaths` deny-list of `shouldSkipCache`. -/
def skipPaths : List String := ["/login", "/register", "/auth/token", "/auth/refresh"]

/-- Embeds `strings.HasPrefix(s, prefixStr)`: the second string's bytes
start the first string's bytes. -/
def goHasPrefix (s prefixStr : String) : Bool :=
  prefixStr.data.isPrefixOf s.data

/-- Embeds `shouldSkipCache` from keygen.go: true iff some deny-list entry
is a prefix of the request path (`strings.HasPrefix(path, skipPath)`). -/
def shouldSkipCache (path : String) : Bool :=
  skipPaths.any (fun sp => goHasPrefix path sp)

/-! ## Session cache (src/service/user_service.go)

The external Redis store is modelled as an association list of cached
payloads plus an availability flag (`redis.IsAvailable()`) and a failure
flag (a store/circuit-breaker error on access). A cached payload is either
a well-formed serialized `SessionData` (a `json.Marshal` result, which
`json.Unmarshal` inverts) or `malformed` (bytes on which `json.Unmarshal`
fails). -/

/-- The fields of `model.User` read by `CacheUserSession` (`user.ID.String()`
is modelled as the already-rendered string). -/
structure User where
  id : String
  name : String
  email : String
  role : String
  verifiedEmail : Bool
deriving DecidableEq, Repr

/-- Embeds the `SessionData` struct of user_service.go. -/
structure SessionData where
  id : String
  name : String
  email : String
  role : String
  verifiedEmail : Bool
  sessionID : String
  createdAt : Int
deriving DecidableEq, Repr

/-- A value held in the store under a session key: the `json.Marshal` image
of a `SessionData`, or bytes `json.Unmarshal` rejects. -/
inductive CachedPayload where
  | wellFormed (sd : SessionData)
  | malformed
deriving DecidableEq, Repr

/-- State of the modelled Redis store as seen by the session service:
`available` is `redis.IsAvailable()`; `failing` means any store access
(GET/SET through the circuit breaker) returns an error; `entries` is the
keyspace, most recent write first (a redis SET overwrites, so only the
first match counts). -/
structure CacheState where
  available : Bool
  failing : Bool
  entries : List (String × CachedPayload)
deriving DecidableEq, Repr

/-- First-match key lookup in the modelled keyspace (redis GET). -/
def CacheState.lookup (st : CacheState) (key : String) : Option CachedPayload :=
  (st.entries.find? (fun e => e.1 = key)).map Prod.snd

/-- Errors surfaced by the session service: the sentinel `ErrCacheMiss` and
the wrapped `failed to unmarshal session data: %w` error. -/
inductive SessionError where
  | cacheMiss
  | unmarshalFailed
deriving DecidableEq, Repr

/-- Errors surfaced by `CacheUserSession`: the wrapped
`failed to cache session: %w` write error. -/
inductive CacheWriteError where
  | writeFailed
deriving DecidableEq, Repr

/-- The session key `fmt.Sprintf("session:user:%s", userID)` used by both
`CacheUserSession` and `GetUserSession`. -/
def sessionUserKey (userID : String) : String := "session:user:" ++ userID

/-- Embeds RFC 4648 URL-safe base64 with padding
(`base64.URLEncoding.EncodeToString`), bytes as `Nat`s below 256. -/
def base64UrlAlphabet : List Char :=
  "ABCDEFGHIJKLMNOPQRSTUVWXYZabcdefghijklmnopqrstuvwxyz0123456789-_".data

/-- Character of the URL-safe base64 alphabet at a 6-bit index. -/
def b64Char (n : Nat) : Char := base64UrlAlphabet.getD n 'A'

/-- URL-safe base64 encoding of a byte sequence, 3 bytes to 4 characters
with `=` padding. -/
def base64UrlEncode : List Nat → List Char
  | [] => []
  | [b0] => [b64Char (b0 / 4), b64Char (b0 % 4 * 16), '=', '=']
  | [b0, b1] => [b64Char (b0 / 4), b64Char (b0 % 4 * 16 + b1 / 16), b64Char (b1 % 16 * 4), '=']
  | b0 :: b1 :: b2 :: rest =>
    b64Char (b0 / 4) :: b64Char (b0 % 4 * 16 + b1 / 16) ::
      b64Char (b1 % 16 * 4 + b2 / 64) :: b64Char (b2 % 64) :: base64UrlEncode rest

/-- Embeds `GenerateSessionID`: base64-URL-encode 32 bytes drawn from
`crypto/rand` (the entropy is a parameter; the model covers the
rand-success path, the only one the claims touch). -/
def generateSessionID (entropy : List Nat) : String :=
  ⟨base64UrlEncode entropy⟩

/-- Embeds `CacheUserSession`: no-op success when the store is unavailable;
otherwise builds a `SessionData` from the user (fresh session ID from the
given entropy, `created_at` = now), serializes it, and SETs it under
`session:user:{userID}` through the circuit breaker — a store failure is
returned as the wrapped write error. -/
def cacheUserSession (st : CacheState) (userID : String) (user : User)
    (entropy : List Nat) (now : Int) : CacheState × Except CacheWriteError Unit :=
  if !st.available then (st, .ok ())
  else
    let sd : SessionData :=
      ⟨user.id, user.name, user.email, user.role, user.verifiedEmail,
        generateSessionID entropy, now⟩
    if st.failing then (st, .error .writeFailed)
    else ({ st with entries := (sessionUserKey userID, .wellFormed sd) :: st.entries }, .ok ())

/-- Embeds `GetUserSession`: `ErrCacheMiss` when the store is unavailable;
otherwise GET through the circuit breaker, where a redis `Nil` (key
absent), any other store error, and any circuit-breaker error all collapse
to `ErrCacheMiss`; a payload `json.Unmarshal` rejects returns the wrapped
unmarshal error; a well-formed payload is returned. -/
def getUserSession (st : CacheState) (userID : String) :
    Except SessionError SessionData :=
  if !st.available then .error .cacheMiss
  else if st.failing then .error .cacheMiss
  else
    match st.lookup (sessionUserKey userID) with
    | none => .error .cacheMiss
    | some .malformed => .error .unmarshalFailed
    | some (.wellFormed sd) => .ok sd

/-! ## Circuit breaker (src/redis/client.go with sony/gobreaker v2)

`NewRedisClient` configures `gobreaker.Settings{MaxRequests: 5, Interval:
time.Minute, Timeout: 30 * time.Second, ReadyToTrip: counts.
ConsecutiveFailures > 3}`. The gobreaker v2 state machine is embedded with
time as a `Nat` of seconds (`0` plays the role of Go's zero `time.Time`;
the configured expiries are always positive, so no confusion arises). -/

/-- gobreaker's `State`. -/
inductive CBState where
  | closed
  | isOpen
  | halfOpen
deriving DecidableEq, Repr

/-- gobreaker's `Counts`. -/
structure Counts where
  requests : Nat
  totalSuccesses : Nat
  totalFailures : Nat
  consecutiveSuccesses : Nat
  consecutiveFailures : Nat
deriving DecidableEq, Repr

/-- gobreaker `Counts.onRequest`. -/
def Counts.onRequest (c : Counts) : Counts := { c with requests := c.requests + 1 }

/-- gobreaker `Counts.onSuccess`. -/
def Counts.onSuccess (c : Counts) : Counts :=
  { c with totalSuccesses := c.totalSuccesses + 1,
           consecutiveSuccesses := c.consecutiveSuccesses + 1,
           consecutiveFailures := 0 }

/-- gobreaker `Counts.onFailure`. -/
def Counts.onFailure (c : Counts) : Counts :=
  { c with totalFailures := c.totalFailures + 1,
           consecutiveFailures := c.consecutiveFailures + 1,
           consecutiveSuccesses := 0 }

/-- The circuit breaker instance created by `NewRedisClient`, with the
configured constants fixed: `MaxRequests` 5, `Interval` 60s, `Timeout`
30s. -/
structure Breaker where
  state : CBState
  generation : Nat
  counts : Counts
  expiry : Nat
deriving DecidableEq, Repr

/-- The configured `ReadyToTrip`: `counts.ConsecutiveFailures > 3`. -/
def readyToTrip (c : Counts) : Bool := c.consecutiveFailures > 3

/-- gobreaker `toNewGeneration`: clear counts, advance the generation, set
the expiry from the new state (closed: now + Interval(60); open: now +
Timeout(30); half-open: zero time). -/
def toNewGeneration (b : Breaker) (now : Nat) : Breaker :=
  let cleared : Counts := ⟨0, 0, 0, 0, 0⟩
  match b.state with
  | .closed => { b with generation := b.generation + 1, counts := cleared, expiry := now + 60 }
  | .isOpen => { b with generation := b.generation + 1, counts := cleared, expiry := now + 30 }
  | .halfOpen => { b with generation := b.generation + 1, counts := cleared, expiry := 0 }

/-- gobreaker `setState` (state-change callback only logs). -/
def setState (b : Breaker) (s : CBState) (now : Nat) : Breaker :=
  if b.state = s then b else toNewGeneration { b with state := s } now

/-- gobreaker `currentState`: in CLOSED an elapsed interval starts a new
generation; in OPEN an elapsed timeout moves to HALF-OPEN. Returns the
updated breaker and the observed state. -/
def currentState (b : Breaker) (now : Nat) : Breaker × CBState :=
  match b.state with
  | .closed =>
    if b.expiry ≠ 0 ∧ b.expiry < now then (toNewGeneration b now, .closed) else (b, .closed)
  | .isOpen =>
    if b.expiry < now then (setState b .halfOpen now, .halfOpen) else (b, .isOpen)
  | .halfOpen => (b, .halfOpen)

/-- Outcome of one `Execute` call: rejected because the breaker is OPEN
(`ErrOpenState`), rejected because the HALF-OPEN trial budget is spent
(`ErrTooManyRequests`), or the wrapped call ran with the given success. -/
inductive ExecOutcome where
  | rejectedOpen
  | rejectedTooMany
  | done (success : Bool)
deriving DecidableEq, Repr

/-- gobreaker `onSuccess` for the observed state. -/
def cbOnSuccess (b : Breaker) (st : CBState) (now : Nat) : Breaker :=
  match st with
  | .closed => { b with counts := b.counts.onSuccess }
  | .isOpen => b
  | .halfOpen =>
    let b1 := { b with counts := b.counts.onSuccess }
    if b1.counts.consecutiveSuccesses ≥ 5 then setState b1 .closed now else b1

/-- gobreaker `onFailure` for the observed state. -/
def cbOnFailure (b : Breaker) (st : CBState) (now : Nat) : Breaker :=
  match st with
  | .closed =>
    let b1 := { b with counts := b.counts.onFailure }
    if readyToTrip b1.counts then setState b1 .isOpen now else b1
  | .isOpen => b
  | .halfOpen => setState b .isOpen now

/-- gobreaker `Execute` with the repository's settings, for a call whose
success/failure is `success`: `beforeRequest` (reject when OPEN, or when
HALF-OPEN with `Requests ≥ MaxRequests(5)`; otherwise count the request),
run the call, then `afterRequest` on the same generation. -/
def execute (b : Breaker) (now : Nat) (success : Bool) : Breaker × ExecOutcome :=
  let cs := currentState b now
  match cs.2 with
  | .isOpen => (cs.1, .rejectedOpen)
  | st =>
    if st = .halfOpen ∧ cs.1.counts.requests ≥ 5 then (cs.1, .rejectedTooMany)
    else
      let b1 := { cs.1 with counts := cs.1.counts.onRequest }
      let gen := cs.1.generation
      let cs2 := currentState b1 now
      if cs2.1.generation ≠ gen then (cs2.1, .done success)
      else if success then (cbOnSuccess cs2.1 cs2.2 now, .done true)
      else (cbOnFailure cs2.1 cs2.2 now, .done false)

/-- gobreaker `NewCircuitBreaker`: zero state (CLOSED) then
`toNewGeneration(now)`. -/
def newBreaker (now : Nat) : Breaker :=
  toNewGeneration ⟨.closed, 0, ⟨0, 0, 0, 0, 0⟩, 0⟩ now

/-- Fold a list of `(time, success)` calls through `execute`. -/
def runCalls (b : Breaker) : List (Nat × Bool) → Breaker
  | [] => b
  | (t, s) :: rest => runCalls (execute b t s).1 rest

/-! ## Pattern-based invalidation (src/cache/patterns.go and the
`CacheInvalidator` of src/cache) -/

/-- Embeds `GetSessionKey` / the constant `SessionKeyPrefix`. -/
def GetSessionKey (userID : String) : String := "session:user:" ++ userID

/-- Embeds `GetSessionPattern` from patterns.go. -/
def GetSessionPattern (userID : String) : String := "session:user:" ++ userID

/-- Embeds `GetAPIResponseKeyPattern` from patterns.go. -/
def GetAPIResponseKeyPattern (userID : String) : String :=
  "api:response:*:user:" ++ userID ++ ":*"

/-- Error surfaced by `InvalidateByPattern`: a SCAN iterator error or a DEL
error (both wrapped with `fmt.Errorf`). -/
inductive InvalidationError where
  | scanFailed
  | delFailed
deriving DecidableEq, Repr

/-- Store-side outcomes of one pattern deletion, an environment parameter:
whether the SCAN iteration fails and whether the subsequent DEL fails for a
given pattern. Membership lists keep the model decidable. -/
structure InvalidatorEnv where
  scanFailing : List String
  delFailing : List String
deriving DecidableEq, Repr

/-- A constructed `CacheInvalidator`. `NewCacheInvalidator` returns nil
when the Redis client is nil and otherwise stores the non-nil go-redis
client, so a constructed invalidator always holds a usable client; the
`Option` at the call sites models the nil receiver. -/
structure Invalidator where
  unit : Unit
deriving DecidableEq, Repr

/-- Embeds `InvalidateByPattern`: a nil receiver returns nil at once with
no store access; otherwise one SCAN (an iterator error is surfaced) and,
for the matched keys, one DEL (an error is surfaced). The second component
lists the patterns for which the store was actually accessed. -/
def invalidateByPattern (ci : Option Invalidator) (env : InvalidatorEnv)
    (pattern : String) : Except InvalidationError Unit × List String :=
  match ci with
  | none => (.ok (), [])
  | some _ =>
    if pattern ∈ env.scanFailing then (.error .scanFailed, [pattern])
    else if pattern ∈ env.delFailing then (.error .delFailed, [pattern])
    else (.ok (), [pattern])

/-- Embeds `InvalidateSessionCache`: nil receiver returns nil; otherwise
delegates to `InvalidateByPattern` on `GetSessionPattern(userID)`. -/
def invalidateSessionCache (ci : Option Invalidator) (env : InvalidatorEnv)
    (userID : String) : Except InvalidationError Unit × List String :=
  match ci with
  | none => (.ok (), [])
  | some inv => invalidateByPattern (some inv) env (GetSessionPattern userID)

/-- Embeds `InvalidateUserRelatedCache` (the variant composing the session
pattern with the wildcard response pattern): nil receiver returns nil;
otherwise invalidates the session pattern (an error is only logged), then
the API response pattern (an error is only logged), and returns nil. -/
def invalidateUserRelatedCache (ci : Option Invalidator) (env : InvalidatorEnv)
    (userID : String) : Except InvalidationError Unit × List String :=
  match ci with
  | none => (.ok (), [])
  | some inv =>
    let r1 := invalidateSessionCache (some inv) env userID
    let r2 := invalidateByPattern (some inv) env (GetAPIResponseKeyPattern userID)
    (.ok (), r1.2 ++ r2.2)

/-! ## Guarded execution (src/redis/client.go `ExecuteWithCircuitBreaker`) -/

/-- Result of `ExecuteWithCircuitBreaker`: the sentinel
`ErrRedisUnavailable` for a nil facade, or the breaker outcome. -/
inductive GuardedResult where
  | errRedisUnavailable
  | breakerOutcome (o : ExecOutcome)
deriving DecidableEq, Repr

/-- Embeds `ExecuteWithCircuitBreaker`: a nil receiver fails immediately
with `ErrRedisUnavailable` — the wrapped function is never invoked (the
`Bool` component records whether it ran); otherwise the call is delegated
to `circuitBreaker.Execute`. -/
def executeWithCircuitBreaker (r : Option Breaker) (now : Nat) (success : Bool) :
    Option Breaker × GuardedResult × Bool :=
  match r with
  | none => (none, .errRedisUnavailable, false)
  | some b =>
    let e := execute b now success
    (some e.1, .breakerOutcome e.2,
      match e.2 with
      | .done _ => true
      | _ => false)

/-! ## Rate limiter key derivation (src/middleware/limiter.go) -/

/-- The request data the limiter's `KeyGenerator` reads:
`c.Locals("user_id")` (absent or its `%v` rendering), the
`X-Forwarded-For` and `CF-Connecting-IP` headers (empty when absent,
`c.Get`), and the raw connection address `c.IP()`. -/
structure LimiterRequest where
  userID : Option String
  xForwardedFor : String
  cfConnectingIP : String
  ip : String
deriving DecidableEq, Repr

/-- Embeds the `KeyGenerator` closure of `NewRateLimiterMiddleware`. -/
def rateLimitKey (c : LimiterRequest) : String :=
  match c.userID with
  | some uid => "rate_limit:user:" ++ uid
  | none =>
    if c.xForwardedFor ≠ "" then "rate_limit:ip:" ++ c.xForwardedFor
    else if c.cfConnectingIP ≠ "" then "rate_limit:ip:" ++ c.cfConnectingIP
    else "rate_limit:ip:" ++ c.ip

/-! ## Remaining definitions used by the statements -/

/-- Modelled from the spec: the login, registration, and token
issuance/refresh endpoints (their `AuthRoutes` registration file is not
among the provided sources) are mounted on the `/v1` group
(`v1 := app.Group("/v1")` in `Routes`), so every such request path carries
the `/v1` prefix. -/
def v1AuthEndpointPaths : List String :=
  ["/v1/auth/login", "/v1/auth/register", "/v1/auth/refresh-tokens"]

/-- No two consecutive characters are both `'/'` — the paths on which the
single `ReplaceAll` pass has nothing to do. -/
def noDoubleSlash : List Char → Bool
  | a :: b :: r => !(a == '/' && b == '/') && noDoubleSlash (b :: r)
  | _ => true

/-! ## Theorems -/

/-- Claim C9: the rate limiter's identity key follows the strict priority
order: an authenticated subject identifier yields `rate_limit:user:{id}`;
otherwise the first non-empty proxy header (`X-Forwarded-For`, then
`CF-Connecting-IP`) yields `rate_limit:ip:{addr}`; otherwise the raw
connection address does — the first non-empty source wins. -/
theorem rateLimitKey_priority (c : LimiterRequest) :
    (∀ uid, c.userID = some uid → rateLimitKey c = "rate_limit:user:" ++ uid) ∧
    (c.userID = none → c.xForwardedFor ≠ "" →
      rateLimitKey c = "rate_limit:ip:" ++ c.xForwardedFor) ∧
    (c.userID = none → c.xForwardedFor = "" → c.cfConnectingIP ≠ "" →
      rateLimitKey c = "rate_limit:ip:" ++ c.cfConnectingIP) ∧
    (c.userID = none → c.xForwardedFor = "" → c.cfConnectingIP = "" →
      rateLimitKey c = "rate_limit:ip:" ++ c.ip) := by
  refine ⟨?_, ?_, ?_, ?_⟩ <;> intros <;> simp_all [rateLimitKey]

/-- Witness for C9 at a concrete request: no subject identifier and a
non-empty `X-Forwarded-For` yield the forwarded address. -/
theorem rateLimitKey_priority_witness :
    rateLimitKey ⟨none, "9.9.9.9", "8.8.8.8", "1.2.3.4"⟩ = "rate_limit:ip:9.9.9.9" :=
  (rateLimitKey_priority ⟨none, "9.9.9.9", "8.8.8.8", "1.2.3.4"⟩).2.1 rfl (by decide)

/-- Claim C10: with the cache subsystem absent (nil facade or nil
invalidator), every operation is total and fully bypassed:
`ExecuteWithCircuitBreaker` fails immediately with `ErrRedisUnavailable`
and never invokes the wrapped function, and the invalidator operations
return success with no store access. -/
theorem nilCacheSubsystem_bypass :
    (∀ now success, executeWithCircuitBreaker none now success
      = (none, .errRedisUnavailable, false)) ∧
    (∀ env pattern, invalidateByPattern none env pattern = (.ok (), [])) ∧
    (∀ env uid, invalidateSessionCache none env uid = (.ok (), [])) ∧
    (∀ env uid, invalidateUserRelatedCache none env uid = (.ok (), [])) :=
  ⟨fun _ _ => rfl, fun _ _ => rfl, fun _ _ => rfl, fun _ _ => rfl⟩

/-- Claim C8: `InvalidateUserRelatedCache` on a constructed invalidator
attempts exactly the session pattern `session:user:{id}` and then the
response pattern `api:response:*:user:{id}:*` — both are attempted in
every store environment, in particular when the first deletion fails — and
the call returns success regardless of either outcome. -/
theorem invalidateUserRelatedCache_twoPatterns (inv : Invalidator)
    (env : InvalidatorEnv) (uid : String) :
    (invalidateUserRelatedCache (some inv) env uid).1 = .ok () ∧
    (invalidateUserRelatedCache (some inv) env uid).2 =
      [GetSessionPattern uid, GetAPIResponseKeyPattern uid] := by
  simp only [invalidateUserRelatedCache, invalidateSessionCache, invalidateByPattern]
  split_ifs <;> simp

/-- Claim C6 counterexample: the derived key has no `':'` between the
normalized path and the `'?'`; at `GET /users?a=1` the key is
`api:response:GET:/users?a=1`, not the claimed
`api:response:GET:/users:?a=1`. -/
theorem generateCacheKey_layout_cex :
    GenerateCacheKey "GET" "/users" "a=1" = "api:response:GET:/users?a=1" ∧
    GenerateCacheKey "GET" "/users" "a=1" ≠
      "api:response:" ++ "GET" ++ ":" ++ normalizePath "/users" ++ ":" ++ "?"
        ++ sortQueryParams "a=1" := by
  constructor <;> decide

/-- Claim C6 as amended: the key is the composition
`api:response:` ++ method ++ `:` ++ normalizedPath ++ `?` ++ sortedQuery,
with no separator between the normalized path and the `'?'`. -/
theorem generateCacheKey_layout (method path queryString : String) :
    (GenerateCacheKey method path queryString).data =
      "api:response:".data ++ method.data ++ [':'] ++ (normalizePath path).data
        ++ ['?'] ++ (sortQueryParams queryString).data := rfl

/-- Claim C7: the deny-list never matches the application's auth
endpoints: every route is mounted under `/v1`, and `shouldSkipCache` is
false on every path with the `/v1` prefix — in particular on the
login/registration/token-refresh paths — so the prefix check never causes
those requests to bypass caching. -/
theorem shouldSkipCache_missesV1Routes :
    (∀ p ∈ v1AuthEndpointPaths, shouldSkipCache p = false) ∧
    (∀ p : String, goHasPrefix p "/v1" = true → shouldSkipCache p = false) := by
  constructor
  · intro p hp
    fin_cases hp <;> decide
  · intro p hp
    obtain ⟨t, ht⟩ : ∃ t, p.data = '/' :: 'v' :: '1' :: t := by
      obtain ⟨t, ht⟩ := List.isPrefixOf_iff_prefix.mp hp
      exact ⟨t, ht.symm⟩
    simp [shouldSkipCache, skipPaths, goHasPrefix, ht, List.isPrefixOf]

/-- Witness for C7: a concrete `/v1`-prefixed path is not skipped. -/
theorem shouldSkipCache_missesV1Routes_witness :
    shouldSkipCache "/v1/users" = false :=
  shouldSkipCache_missesV1Routes.2 "/v1/users" (by decide)

/-- Claim C2 counterexample: with the store available and the cached
payload malformed, `GetUserSession` returns the wrapped unmarshal error,
not the sentinel `ErrCacheMiss`. -/
theorem getUserSession_malformed_cex :
    getUserSession ⟨true, false, [("session:user:u1", CachedPayload.malformed)]⟩ "u1"
      = .error .unmarshalFailed ∧
    SessionError.unmarshalFailed ≠ SessionError.cacheMiss :=
  ⟨rfl, by decide⟩

/-- Claim C2 as amended: `GetUserSession` returns the sentinel
`ErrCacheMiss` whenever availability is false, the store access fails, or
the key is absent; a malformed cached payload reached with the store
available instead returns the wrapped unmarshal error. -/
theorem getUserSession_missSemantics (st : CacheState) (uid : String) :
    (st.available = false ∨ st.failing = true ∨ st.lookup (sessionUserKey uid) = none →
      getUserSession st uid = .error .cacheMiss) ∧
    (st.available = true → st.failing = false →
      st.lookup (sessionUserKey uid) = some .malformed →
      getUserSession st uid = .error .unmarshalFailed) := by
  constructor
  · rintro (h | h | h) <;>
      cases hav : st.available <;> cases hf : st.failing <;>
        simp_all [getUserSession]
  · intro h1 h2 h3
    simp [getUserSession, h1, h2, h3]

/-- Witness for C2's amended theorem: an unavailable store yields the
sentinel miss. -/
theorem getUserSession_missSemantics_witness :
    getUserSession ⟨false, false, []⟩ "u1" = .error .cacheMiss :=
  (getUserSession_missSemantics ⟨false, false, []⟩ "u1").1 (Or.inl rfl)

/-- Claim C3 counterexample: with the configured settings (trip after more
than 3 consecutive failures, 30s cooldown, `MaxRequests` 5), one
successful trial call after the cooldown leaves the breaker HALF-OPEN — it
does not close it. -/
theorem breaker_oneTrialSuccess_cex :
    (runCalls (newBreaker 0) [(1, false), (2, false), (3, false)]).state
      = CBState.closed ∧
    (runCalls (newBreaker 0) [(1, false), (2, false), (3, false), (4, false)]).state
      = CBState.isOpen ∧
    (execute (runCalls (newBreaker 0) [(1, false), (2, false), (3, false), (4, false)])
      20 true).2 = .rejectedOpen ∧
    (runCalls (newBreaker 0)
      [(1, false), (2, false), (3, false), (4, false), (35, true)]).state
      = CBState.halfOpen ∧
    CBState.halfOpen ≠ CBState.closed := by
  refine ⟨?_, ?_, ?_, ?_, ?_⟩ <;> decide

/-- Claim C3 as amended: with the configured settings, within one counting
generation a CLOSED breaker trips to OPEN exactly when consecutive
failures exceed 3 (on the 4th); while the 30s cooldown has not elapsed an
OPEN breaker rejects every call unchanged; in HALF-OPEN up to 5 trial
requests are admitted and further ones rejected; a trial success closes
the breaker only when it is the 5th consecutive success (`MaxRequests`),
otherwise the breaker stays HALF-OPEN; any trial failure reopens it. -/
theorem breaker_amended :
    (∀ b : Breaker, ∀ now, b.state = .closed → ¬(b.expiry ≠ 0 ∧ b.expiry < now) →
      (execute b now false).1.state =
        (if b.counts.consecutiveFailures + 1 > 3 then .isOpen else .closed)) ∧
    (∀ b : Breaker, ∀ now s, b.state = .isOpen → now ≤ b.expiry →
      execute b now s = (b, .rejectedOpen)) ∧
    (∀ b : Breaker, ∀ now s, b.state = .halfOpen → b.counts.requests ≥ 5 →
      execute b now s = (b, .rejectedTooMany)) ∧
    (∀ b : Breaker, ∀ now s, b.state = .halfOpen → b.counts.requests < 5 →
      (execute b now s).2 = .done s) ∧
    (∀ b : Breaker, ∀ now, b.state = .halfOpen → b.counts.requests < 5 →
      (execute b now true).1.state =
        (if b.counts.consecutiveSuccesses + 1 ≥ 5 then .closed else .halfOpen)) ∧
    (∀ b : Breaker, ∀ now, b.state = .halfOpen → b.counts.requests < 5 →
      (execute b now false).1.state = .isOpen) := by
  refine ⟨?_, ?_, ?_, ?_, ?_, ?_⟩
  · rintro ⟨st, gen, cnt, exp⟩ now hst hexp
    subst hst
    simp [execute, currentState, if_neg hexp, cbOnFailure, Counts.onRequest, Counts.onFailure,
      readyToTrip, setState, toNewGeneration]
    split <;> simp_all
  · rintro ⟨st, gen, cnt, exp⟩ now s hst hle
    subst hst
    have hnl : ¬ (exp < now) := Nat.not_lt.mpr hle
    simp [execute, currentState, hnl]
  · rintro ⟨st, gen, cnt, exp⟩ now s hst hge
    subst hst
    simp [execute, currentState, hge]
  · rintro ⟨st, gen, cnt, exp⟩ now s hst hlt
    subst hst
    simp only [execute, currentState]
    simp [Nat.not_le.mpr hlt]
    cases s <;> simp [cbOnSuccess, cbOnFailure]
  · rintro ⟨st, gen, cnt, exp⟩ now hst hlt
    subst hst
    simp [execute, currentState, Nat.not_le.mpr hlt, cbOnSuccess, Counts.onRequest,
      Counts.onSuccess, setState, toNewGeneration]
    split <;> simp_all
  · rintro ⟨st, gen, cnt, exp⟩ now hst hlt
    subst hst
    simp [execute, currentState, Nat.not_le.mpr hlt]
    simp [cbOnFailure, setState, toNewGeneration]

/-- Witness for C3's amended theorem: a HALF-OPEN breaker with trial
budget left reopens on one failing trial call. -/
theorem breaker_amended_witness :
    (execute ⟨.halfOpen, 3, ⟨1, 1, 0, 1, 0⟩, 0⟩ 40 false).1.state = CBState.isOpen :=
  breaker_amended.2.2.2.2.2 ⟨.halfOpen, 3, ⟨1, 1, 0, 1, 0⟩, 0⟩ 40 rfl (by decide)

/-- A base64 encoding of a nonempty byte sequence is nonempty. -/
theorem base64UrlEncode_ne_nil (l : List Nat) (h : l ≠ []) : base64UrlEncode l ≠ [] := by
  rcases l with _ | ⟨b0, _ | ⟨b1, _ | ⟨b2, rest⟩⟩⟩ <;> simp_all [base64UrlEncode]

/-- Claim C1: with the store available, `CacheUserSession` followed by
`GetUserSession` for the same subject returns a `SessionData` whose name,
email, and role equal the stored user's, with a non-empty session token. -/
theorem sessionCache_roundTrip (st : CacheState) (uid : String) (user : User)
    (entropy : List Nat) (now : Int)
    (hav : st.available = true) (hfail : st.failing = false)
    (hlen : entropy.length = 32) :
    ∃ sd : SessionData,
      getUserSession (cacheUserSession st uid user entropy now).1 uid = .ok sd ∧
      sd.name = user.name ∧ sd.email = user.email ∧ sd.role = user.role ∧
      sd.sessionID ≠ "" := by
  refine ⟨⟨user.id, user.name, user.email, user.role, user.verifiedEmail,
    generateSessionID entropy, now⟩, ?_, rfl, rfl, rfl, ?_⟩
  · simp [cacheUserSession, hav, hfail, getUserSession, CacheState.lookup, List.find?]
  · have hne : entropy ≠ [] := by
      intro hn
      rw [hn] at hlen
      simp at hlen
    have := base64UrlEncode_ne_nil entropy hne
    simpa [generateSessionID, String.ext_iff] using this

/-- Witness for C1 at a concrete store, user, and 32-byte entropy. -/
theorem sessionCache_roundTrip_witness :
    ∃ sd : SessionData,
      getUserSession (cacheUserSession ⟨true, false, []⟩ "u1"
          ⟨"id1", "A", "a@x.com", "user", true⟩ (List.replicate 32 7) 0).1 "u1"
        = .ok sd ∧
      sd.name = "A" ∧ sd.email = "a@x.com" ∧ sd.role = "user" ∧ sd.sessionID ≠ "" :=
  sessionCache_roundTrip ⟨true, false, []⟩ "u1" ⟨"id1", "A", "a@x.com", "user", true⟩
    (List.replicate 32 7) 0 rfl rfl (by decide)

/-- Keys after a Go map insertion: unchanged when the key is present,
otherwise the key is appended. -/
theorem addPair_keys :
    ∀ (m : List (String × List String)) (k v : String),
      (addPair m k v).map Prod.fst =
        if k ∈ m.map Prod.fst then m.map Prod.fst else m.map Prod.fst ++ [k]
  | [], k, v => by simp [addPair]
  | (k0, vs) :: rest, k, v => by
    rw [addPair]
    by_cases h : k0 = k
    · subst h
      rw [if_pos (by simp)]
      simp
    · rw [if_neg h]
      simp only [List.map_cons]
      rw [addPair_keys rest k v]
      by_cases hm : k ∈ rest.map Prod.fst
      · rw [if_pos hm, if_pos (by simp [hm])]
      · rw [if_neg hm, if_neg (by simp [hm]; intro hh; exact h hh.symm)]
        simp

/-- `addPair` preserves distinctness of keys (the Go map invariant). -/
theorem addPair_keysNodup (m : List (String × List String)) (k v : String)
    (hn : (m.map Prod.fst).Nodup) : ((addPair m k v).map Prod.fst).Nodup := by
  rw [addPair_keys]
  split_ifs with h
  · exact hn
  · simp [List.nodup_append, hn, h]

/-- One parse step preserves distinctness of keys. -/
theorem parseSegment_keysNodup {m m2 : List (String × List String)} {seg : List Char}
    (hn : (m.map Prod.fst).Nodup) (h : parseSegment m seg = some m2) :
    (m2.map Prod.fst).Nodup := by
  rw [parseSegment] at h
  split at h
  · cases h
  · split at h
    · cases h
      exact hn
    · split at h
      · cases h
        exact addPair_keysNodup m _ _ hn
      · cases h

/-- The parse fold preserves distinctness of keys. -/
theorem foldl_parseSegment_keysNodup :
    ∀ (segs : List (List Char)) (m0 m : List (String × List String)),
      (m0.map Prod.fst).Nodup → List.foldlM parseSegment m0 segs = some m →
      (m.map Prod.fst).Nodup
  | [], m0, m, hn, h => by
    simp at h
    subst h
    exact hn
  | seg :: rest, m0, m, hn, h => by
    rw [List.foldlM_cons] at h
    rcases hs : parseSegment m0 seg with _ | m1
    · rw [hs] at h
      simp at h
    · rw [hs] at h
      simp only [Option.bind_eq_bind, Option.some_bind] at h
      exact foldl_parseSegment_keysNodup rest m1 m (parseSegment_keysNodup hn hs) h

/-- `url.ParseQuery` yields groups with pairwise-distinct keys. -/
theorem parseQuery_keysNodup {q : List Char} {m : List (String × List String)}
    (h : parseQuery q = some m) : (m.map Prod.fst).Nodup :=
  foldl_parseSegment_keysNodup (q.splitOn '&') [] m (by simp) h

/-- With distinct keys, the association lookup returns the unique group of
a present key. -/
theorem lookupValues_eq_of_mem :
    ∀ {m : List (String × List String)} {k : String} {vs : List String},
      (m.map Prod.fst).Nodup → (k, vs) ∈ m → lookupValues m k = vs := by
  intro m
  induction m with
  | nil => simp
  | cons e rest ih =>
    rintro k vs hn hmem
    obtain ⟨k0, vs0⟩ := e
    rw [List.map_cons] at hn
    obtain ⟨hk0, hrest⟩ := List.nodup_cons.mp hn
    rw [lookupValues]
    rcases List.mem_cons.mp hmem with heq | hmem2
    · injection heq with hk hv
      subst hk
      subst hv
      rw [if_pos rfl]
    · have hkm : k ∈ rest.map Prod.fst := List.mem_map.mpr ⟨(k, vs), hmem2, rfl⟩
      have hne : k0 ≠ k := fun hh => hk0 (hh ▸ hkm)
      rw [if_neg hne]
      exact ih hrest hmem2

/-- The association lookup of an absent key is the empty group. -/
theorem lookupValues_eq_nil_of_not_mem :
    ∀ {m : List (String × List String)} {k : String},
      k ∉ m.map Prod.fst → lookupValues m k = [] := by
  intro m
  induction m with
  | nil => simp [lookupValues]
  | cons e rest ih =>
    rintro k hk
    obtain ⟨k0, vs0⟩ := e
    rw [lookupValues, if_neg (fun hh => hk (by simp [hh]))]
    exact ih (fun hh => hk (by simp [hh]))

/-- Permuting the groups (keys distinct) does not change any lookup. -/
theorem lookupValues_perm {m1 m2 : List (String × List String)}
    (hp : m1.Perm m2) (hn : (m1.map Prod.fst).Nodup) (k : String) :
    lookupValues m1 k = lookupValues m2 k := by
  have hn2 : (m2.map Prod.fst).Nodup := (hp.map Prod.fst).nodup hn
  by_cases hm : k ∈ m1.map Prod.fst
  · rcases List.mem_map.mp hm with ⟨⟨k0, vs⟩, hmem, hfst⟩
    obtain rfl : k0 = k := hfst
    rw [lookupValues_eq_of_mem hn hmem,
      lookupValues_eq_of_mem hn2 (hp.mem_iff.mp hmem)]
  · rw [lookupValues_eq_nil_of_not_mem hm,
      lookupValues_eq_nil_of_not_mem (fun hc => hm ((hp.map Prod.fst).mem_iff.mpr hc))]

/-- `sortQueryParams` on a successfully parsed non-empty query equals the
sorted-and-escaped rebuild of its groups. -/
theorem sortQueryParams_eq_of_parse {q : String} {m : List (String × List String)}
    (hq : q ≠ "") (h : parseQuery q.data = some m) :
    sortQueryParams q = String.intercalate "&"
      ((((m.map Prod.fst).insertionSort (· ≤ ·)).map
        (fun n => (lookupValues m n).map (fun v => n ++ "=" ++ queryEscape v))).flatten) := by
  rw [sortQueryParams, if_neg hq, h]

/-- Claim C5 counterexample: when `url.ParseQuery` rejects the query
(here `%zz` is a malformed escape), `sortQueryParams` falls back to the
raw input, so two queries that differ only in the order of their
parameters produce different keys. -/
theorem generateCacheKey_queryOrder_cex :
    parseQuery ("b=%zz&a=1".data) = none ∧
    parseQuery ("a=1&b=%zz".data) = none ∧
    GenerateCacheKey "GET" "/u" "b=%zz&a=1" ≠ GenerateCacheKey "GET" "/u" "a=1&b=%zz" := by
  refine ⟨?_, ?_, ?_⟩ <;> decide

/-- Claim C5 as amended: for every method and path, and every two
non-empty query strings that `url.ParseQuery` accepts and that parse to
the same name-to-values groups up to group order (same parameter multiset
with per-name value order preserved), `GenerateCacheKey` produces
byte-identical output: canonicalization sorts the names lexicographically,
keeps per-name value order, and percent-encodes values. A query the
parser rejects is used verbatim, so only parseable queries are
order-invariant. -/
theorem generateCacheKey_queryOrderInvariant (method path q1 q2 : String)
    (m1 m2 : List (String × List String))
    (h1 : parseQuery q1.data = some m1) (h2 : parseQuery q2.data = some m2)
    (hq1 : q1 ≠ "") (hq2 : q2 ≠ "") (hp : m1.Perm m2) :
    GenerateCacheKey method path q1 = GenerateCacheKey method path q2 := by
  have hs : sortQueryParams q1 = sortQueryParams q2 := by
    rw [sortQueryParams_eq_of_parse hq1 h1, sortQueryParams_eq_of_parse hq2 h2]
    have hnod1 : (m1.map Prod.fst).Nodup := parseQuery_keysNodup h1
    have hkeys : (m1.map Prod.fst).Perm (m2.map Prod.fst) := hp.map Prod.fst
    have hsort : (m1.map Prod.fst).insertionSort (· ≤ ·)
        = (m2.map Prod.fst).insertionSort (· ≤ ·) :=
      List.eq_of_perm_of_sorted
        ((List.perm_insertionSort _ _).trans
          (hkeys.trans (List.perm_insertionSort _ _).symm))
        (List.sorted_insertionSort _ _) (List.sorted_insertionSort _ _)
    rw [hsort]
    have hmap : ((m2.map Prod.fst).insertionSort (· ≤ ·)).map
          (fun n => (lookupValues m1 n).map (fun v => n ++ "=" ++ queryEscape v))
        = ((m2.map Prod.fst).insertionSort (· ≤ ·)).map
          (fun n => (lookupValues m2 n).map (fun v => n ++ "=" ++ queryEscape v)) :=
      List.map_congr_left (fun n _ => by rw [lookupValues_perm hp hnod1 n])
    rw [hmap]
  simp [GenerateCacheKey, hs]

/-- Witness for C5's amended theorem: `b=2&a=1` and `a=1&b=2` parse to
permuted groups and derive the same key. -/
theorem generateCacheKey_queryOrderInvariant_witness :
    GenerateCacheKey "GET" "/users" "b=2&a=1" = GenerateCacheKey "GET" "/users" "a=1&b=2" :=
  generateCacheKey_queryOrderInvariant "GET" "/users" "b=2&a=1" "a=1&b=2"
    [("b", ["2"]), ("a", ["1"])] [("a", ["1"]), ("b", ["2"])]
    (by decide) (by decide) (by decide) (by decide)
    (List.Perm.swap ("a", ["1"]) ("b", ["2"]) [])

/-- Dropping the head preserves the absence of double slashes. -/
theorem noDoubleSlash_tail {a : Char} {r : List Char}
    (h : noDoubleSlash (a :: r) = true) : noDoubleSlash r = true := by
  cases r with
  | nil => rfl
  | cons b r2 =>
    simp [noDoubleSlash] at h
    simpa using h.2

/-- The replacement pass steps over a head that does not open a `"//"`
occurrence. -/
theorem replaceDoubleSlash_cons (a : Char) (l : List Char)
    (h : ¬(a = '/' ∧ l.head? = some '/')) :
    replaceDoubleSlash (a :: l) = a :: replaceDoubleSlash l := by
  cases l with
  | nil => rfl
  | cons b r =>
    have hn : ¬(a = '/' ∧ b = '/') := fun hc => h ⟨hc.1, by simp [hc.2]⟩
    simp [replaceDoubleSlash, if_neg hn]

/-- On a path without `"//"` the replacement pass is the identity. -/
theorem replaceDoubleSlash_eq_self :
    ∀ l : List Char, noDoubleSlash l = true → replaceDoubleSlash l = l
  | [], _ => rfl
  | [c], _ => rfl
  | a :: b :: r, h => by
    have h2 := noDoubleSlash_tail h
    have h1 : ¬(a = '/' ∧ b = '/') := by
      simp [noDoubleSlash] at h
      intro hc
      exact absurd h.1 (by simp [hc.1, hc.2])
    simp [replaceDoubleSlash, if_neg h1]
    exact replaceDoubleSlash_eq_self (b :: r) h2

/-- Appending one `'/'` to a path without `"//"` that does not already end
in `'/'` keeps it free of `"//"`. -/
theorem noDoubleSlash_append_slash :
    ∀ l : List Char, noDoubleSlash l = true → l.getLast? ≠ some '/' →
      noDoubleSlash (l ++ ['/']) = true
  | [], _, _ => rfl
  | [c], _, hl => by
    have : c ≠ '/' := by simpa using hl
    simp [noDoubleSlash, this]
  | a :: b :: r, h, hl => by
    simp only [noDoubleSlash] at h
    have h1 := (Bool.and_eq_true _ _).mp h
    simp only [List.cons_append, noDoubleSlash]
    refine (Bool.and_eq_true _ _).mpr ⟨h1.1, ?_⟩
    exact noDoubleSlash_append_slash (b :: r) h1.2 (by simpa using hl)

/-- Doubling the distinguished separator of a path without `"//"` is
undone by the replacement pass. -/
theorem replaceDoubleSlash_insert :
    ∀ s t : List Char, noDoubleSlash (s ++ '/' :: t) = true →
      replaceDoubleSlash (s ++ '/' :: '/' :: t) = s ++ '/' :: t
  | [], t, h => by
    have h2 : noDoubleSlash t = true := noDoubleSlash_tail h
    simp [replaceDoubleSlash]
    exact replaceDoubleSlash_eq_self t h2
  | a :: s2, t, h => by
    have htail : noDoubleSlash (s2 ++ '/' :: t) = true := noDoubleSlash_tail h
    have hhead : ¬(a = '/' ∧ (s2 ++ '/' :: '/' :: t).head? = some '/') := by
      rintro ⟨ha, hh⟩
      cases s2 with
      | nil =>
        simp [noDoubleSlash, ha] at h
      | cons c s3 =>
        simp at hh
        simp [noDoubleSlash, ha, hh] at h
    rw [List.cons_append, replaceDoubleSlash_cons a _ hhead,
      replaceDoubleSlash_insert s2 t htail, List.cons_append]

/-- Claim C4 counterexample: the path component does not collapse runs of
three separators to one (`a///b` normalizes to `a//b`), and the root path
is not left unaffected (`/` normalizes to the empty string). -/
theorem normalizePath_cex :
    normalizePath "/" = "" ∧ normalizePath "/" ≠ "/" ∧
    normalizePath "a///b" = "a//b" ∧ normalizePath "a///b" ≠ "a/b" := by
  refine ⟨?_, ?_, ?_, ?_⟩ <;> decide

/-- Claim C4 as amended: the replacement pass removes non-overlapping
pairs of consecutive separators left to right (a doubled separator in an
otherwise normalized path is collapsed, but a run of three yields two and
the root `/` becomes empty after the trailing strip); on a path that is
already normalized — no `"//"` and no trailing `'/'` — the path component
is invariant under doubling any one separator and under appending one
trailing separator. -/
theorem normalizePath_amended (s t : List Char)
    (hnds : noDoubleSlash (s ++ '/' :: t) = true)
    (hlast : (s ++ '/' :: t).getLast? ≠ some '/') :
    normalizePath ⟨s ++ '/' :: '/' :: t⟩ = ⟨s ++ '/' :: t⟩ ∧
    normalizePath ⟨(s ++ '/' :: t) ++ ['/']⟩ = ⟨s ++ '/' :: t⟩ := by
  constructor
  · rw [normalizePath]
    show String.mk (trimSuffixSlash (replaceDoubleSlash (s ++ '/' :: '/' :: t))) = _
    rw [replaceDoubleSlash_insert s t hnds, trimSuffixSlash, if_neg (by simpa using hlast)]
  · rw [normalizePath]
    show String.mk (trimSuffixSlash (replaceDoubleSlash ((s ++ '/' :: t) ++ ['/']))) = _
    rw [replaceDoubleSlash_eq_self _ (noDoubleSlash_append_slash _ hnds hlast),
      trimSuffixSlash, if_pos (List.getLast?_concat _), List.dropLast_concat]

/-- Witness for C4's amended theorem on the concrete path `/a/b`:
`/a//b` and `/a/b/` both normalize to `/a/b`. -/
theorem normalizePath_amended_witness :
    normalizePath "/a//b" = "/a/b" ∧ normalizePath "/a/b/" = "/a/b" :=
  normalizePath_amended "/a".data "b".data (by decide) (by decide)
